import Mathlib

/-
Shallow embedding of src/dqn2.py (a DQN reinforcement-learning agent).

Conventions of the embedding:
* Python floats are modelled by the rationals where the computations are
  algebraic, and by the reals where the source calls math.exp.
* torch tensors holding one value per batch row are Lean lists of rationals;
  a weight matrix is a list of rows.
* The replay memory deque with maxlen=capacity is a Lean list whose push
  drops from the front once the capacity is exceeded, matching
  collections.deque append semantics.
* random.random / random.sample / random.randint draws are passed in as
  explicit arguments (the randomness oracle); random.sample additionally
  keeps its documented ValueError when the requested size exceeds the
  population, modelled with Except.
* Autodifferentiation and the AdamW update (optimizer.zero_grad,
  loss.backward, clip_grad_value_, optimizer.step) are the external numeric
  substrate; the parameter update they perform on the acting network is an
  explicit function argument applied to the current parameters and the loss.
-/

/-- Transition record: namedtuple Transition with fields state, action, next_state, reward
from src/dqn2.py line 161; next_state is absent (none) exactly when the episode
terminated on this step. -/
structure Transition where
  state : List ℚ
  action : ℕ
  next_state : Option (List ℚ)
  reward : ℚ
deriving DecidableEq, Repr

instance : Inhabited Transition := ⟨⟨[], 0, none, 0⟩⟩

/-- ReplayMemory.push (src/dqn2.py lines 14-16): deque append with
maxlen=capacity, evicting from the front when full. -/
def ReplayMemory.push (capacity : ℕ) (memory : List Transition) (t : Transition) :
    List Transition :=
  let l := memory ++ [t]
  l.drop (l.length - capacity)

/-- Folding ReplayMemory.push over a sequence of transitions. -/
def ReplayMemory.pushAll (capacity : ℕ) (memory : List Transition) (ts : List Transition) :
    List Transition :=
  ts.foldl (ReplayMemory.push capacity) memory

/-- ReplayMemory.sample (src/dqn2.py lines 18-19): random.sample(self.memory, batch_size).
The randomness is the index list idxs; per the Python documentation random.sample
raises ValueError when the requested size exceeds the population size, and
otherwise returns the elements at batch_size distinct positions. -/
def ReplayMemory.sample (memory : List Transition) (batch_size : ℕ) (idxs : List ℕ) :
    Except String (List Transition) :=
  if memory.length < batch_size then
    Except.error "Sample larger than population or is negative"
  else
    Except.ok (idxs.map (fun i => memory.getD i default))

/-- Index lists that model a single draw of random.sample over a population of
size n: k pairwise-distinct in-range positions. -/
def SampleSel (n k : ℕ) (idxs : List ℕ) : Prop :=
  idxs.Nodup ∧ idxs.length = k ∧ ∀ i ∈ idxs, i < n

instance (n k : ℕ) (idxs : List ℕ) : Decidable (SampleSel n k idxs) :=
  decidable_of_iff (idxs.Nodup ∧ idxs.length = k ∧ ∀ i ∈ idxs, i < n) Iff.rfl

/-- One torch.nn.Linear layer: a weight matrix (list of rows) and a bias vector. -/
structure Layer where
  weight : List (List ℚ)
  bias : List ℚ
deriving DecidableEq, Repr

/-- Parameters of the DQN module (src/dqn2.py lines 31-33): the three Linear
layers layer1, layer2, layer3; these are exactly the named tensors of its
state_dict. -/
structure Params where
  layer1 : Layer
  layer2 : Layer
  layer3 : Layer
deriving DecidableEq, Repr

/-- Dot product of a weight row with an input vector. -/
def dot (w x : List ℚ) : ℚ :=
  (List.zipWith (fun a b => a * b) w x).sum

/-- Application of a Linear layer: one output per (row, bias) pair. -/
def linearApply (l : Layer) (x : List ℚ) : List ℚ :=
  List.zipWith (fun w b => dot w x + b) l.weight l.bias

/-- Elementwise rectified linear unit, torch.nn.functional.relu. -/
def reluVec (x : List ℚ) : List ℚ :=
  x.map (fun v => max v 0)

/-- DQN.forward (src/dqn2.py lines 39-42): layer3(relu(layer2(relu(layer1 x)))). -/
def DQN.forward (ps : Params) (x : List ℚ) : List ℚ :=
  linearApply ps.layer3 (reluVec (linearApply ps.layer2 (reluVec (linearApply ps.layer1 x))))

/-- Maximum entry of a row, torch .max(1).values on one batch row. -/
def maxRow : List ℚ → ℚ
  | [] => 0
  | x :: xs => xs.foldl max x

/-- Index of the maximum entry of a row (first occurrence on ties),
torch .max(1).indices on one batch row. -/
def argmaxRow (l : List ℚ) : ℕ :=
  (List.range l.length).foldl (fun best i => if l.getD best 0 < l.getD i 0 then i else best) 0

/-- The next_state_values entry of one batch row (src/dqn2.py lines 84-87):
zero when the transition is terminal, otherwise the maximal target-network
action value at the successor state, computed under torch.no_grad. -/
def nextStateValue (target : Params) (t : Transition) : ℚ :=
  match t.next_state with
  | none => 0
  | some s => maxRow (DQN.forward target s)

/-- The next_state_values vector for a sampled batch: zeros overwritten at the
non-final rows (src/dqn2.py lines 84-87), one entry per batch row. -/
def nextStateValues (target : Params) (batch : List Transition) : List ℚ :=
  batch.map (nextStateValue target)

/-- expected_state_action_values = next_state_values * gamma + reward_batch
(src/dqn2.py line 90), elementwise over the batch. -/
def expectedStateActionValues (target : Params) (gamma : ℚ) (batch : List Transition) :
    List ℚ :=
  List.zipWith (fun v r => v * gamma + r) (nextStateValues target batch)
    (batch.map (fun t => t.reward))

/-- Q(s_t, a): the values of the acting network at the stored states, gathered at the
actions actually taken (src/dqn2.py line 77), one entry per batch row. -/
def stateActionValues (policy : Params) (batch : List Transition) : List ℚ :=
  batch.map (fun t => (DQN.forward policy t.state).getD t.action 0)

/-- torch.nn.SmoothL1Loss on one residual, beta = 1. -/
def smoothL1One (pred tgt : ℚ) : ℚ :=
  let d := pred - tgt
  if |d| < 1 then d ^ 2 / 2 else |d| - 1 / 2

/-- torch.nn.SmoothL1Loss between predictions and targets, mean reduction
(src/dqn2.py lines 93-94). -/
def smoothL1 (preds tgts : List ℚ) : ℚ :=
  let l := List.zipWith smoothL1One preds tgts
  l.sum / (l.length : ℚ)

/-- The mutable state optimize_model touches: the parameters of the acting
network (self), the parameters of the target network, and the replay memory
contents. -/
structure AgentState where
  policy : Params
  target : Params
  memory : List Transition
deriving DecidableEq, Repr

/-- DQN.optimize_model (src/dqn2.py lines 44-102). Returns unchanged state when
the memory holds fewer than batch_size transitions; otherwise samples a batch
(idxs is the random.sample draw), forms the bootstrapped regression targets and
the Huber loss, and applies the substrate gradient step optimStep (modelling
zero_grad / backward / clip_grad_value_ / optimizer.step) to the acting
network parameters only. -/
def DQN.optimize_model (batch_size : ℕ) (gamma : ℚ) (idxs : List ℕ)
    (optimStep : Params → ℚ → Params) (s : AgentState) : AgentState :=
  if s.memory.length < batch_size then s
  else
    match ReplayMemory.sample s.memory batch_size idxs with
    | Except.error _ => s
    | Except.ok transitions =>
      let sav := stateActionValues s.policy transitions
      let expected := expectedStateActionValues s.target gamma transitions
      let loss := smoothL1 sav expected
      { s with policy := optimStep s.policy loss }

/-- Elementwise Polyak blend of two parameter vectors, src/dqn2.py line 194:
policy_value * tau + target_value * (1 - tau). -/
def blendList (tau : ℚ) (p t : List ℚ) : List ℚ :=
  List.zipWith (fun a b => a * tau + b * (1 - tau)) p t

/-- Polyak blend of the named tensors (weight and bias) of one Linear layer. -/
def blendLayer (tau : ℚ) (p t : Layer) : Layer :=
  ⟨List.zipWith (blendList tau) p.weight t.weight, blendList tau p.bias t.bias⟩

/-- The Target Tracker (src/dqn2.py lines 190-196): for every key of the
state_dict, target[key] = policy[key] * tau + target[key] * (1 - tau), then
load_state_dict; the keys are exactly the six named tensors of the three
layers. -/
def softUpdate (tau : ℚ) (policy target : Params) : Params :=
  ⟨blendLayer tau policy.layer1 target.layer1,
   blendLayer tau policy.layer2 target.layer2,
   blendLayer tau policy.layer3 target.layer3⟩

/-- Two layers have the same tensor shapes: rowwise-equal weight matrices and
equal-length biases. -/
def LayerShape (a b : Layer) : Prop :=
  List.Forall₂ (fun r s => r.length = s.length) a.weight b.weight ∧
    a.bias.length = b.bias.length

/-- Two parameter sets share the parameter schema of the architecture (the
invariant for the acting and target estimators). -/
def SameShape (p t : Params) : Prop :=
  LayerShape p.layer1 t.layer1 ∧ LayerShape p.layer2 t.layer2 ∧
    LayerShape p.layer3 t.layer3

/-- All parameter elements of one layer, flattened in schema order. -/
def Layer.flat (l : Layer) : List ℚ :=
  l.weight.flatten ++ l.bias

/-- All named parameter elements of a network, flattened in schema order. -/
def Params.flat (ps : Params) : List ℚ :=
  ps.layer1.flat ++ ps.layer2.flat ++ ps.layer3.flat

/-- State of EpsilonGreedyPolicy (src/dqn2.py lines 104-116); the torch device
is substrate and is omitted. -/
structure EpsilonGreedyPolicy where
  steps_done : ℕ
  eps_end : ℝ
  eps_start : ℝ
  eps_decay : ℝ
  n_actions : ℕ

/-- The exploration threshold of src/dqn2.py lines 121-122:
eps_end + (eps_start - eps_end) * exp(-1 * steps_done / eps_decay). -/
noncomputable def epsThreshold (eps_start eps_end eps_decay : ℝ) (steps_done : ℕ) : ℝ :=
  eps_end + (eps_start - eps_end) * Real.exp (-1 * (steps_done : ℝ) / eps_decay)

/-- EpsilonGreedyPolicy.select_action (src/dqn2.py lines 119-133). The uniform
draw u (random.random()) and the uniform action draw randAction
(random.randint(0, n_actions - 1)) are the randomness oracle; policyNet is the
acting network. Returns the updated policy state and the chosen action index. -/
noncomputable def select_action (pol : EpsilonGreedyPolicy) (u : ℝ) (state : List ℚ)
    (policyNet : Params) (randAction : ℕ) : EpsilonGreedyPolicy × ℕ :=
  let eps_threshold := epsThreshold pol.eps_start pol.eps_end pol.eps_decay pol.steps_done
  let pol2 := { pol with steps_done := pol.steps_done + 1 }
  if u > eps_threshold then (pol2, argmaxRow (DQN.forward policyNet state))
  else (pol2, randAction)

/-- Static properties of the environment collaborator (src/dqn2.py lines 151-152
query env.state_dims and env.action_dims once at setup). -/
structure Env where
  state_dims : ℕ
  action_dims : ℕ

/-- Constructor widths of a DQN module: n_observations is the input width of
layer1 and n_actions the output width of layer3 (src/dqn2.py lines 25-33). -/
structure NetDims where
  n_observations : ℕ
  n_actions : ℕ
deriving DecidableEq, Repr

/-- Setup of the dqn training function (src/dqn2.py lines 151-155): n_actions
is read from env.state_dims and n_observations from env.action_dims, and both
policy_net and target_net are constructed as DQN(n_observations, n_actions).
Returns the constructor widths of (policy_net, target_net). -/
def dqnSetup (env : Env) : NetDims × NetDims :=
  let n_actions := env.state_dims
  let n_observations := env.action_dims
  (⟨n_observations, n_actions⟩, ⟨n_observations, n_actions⟩)

/-- Concrete 1x1 layer used to instantiate witnesses. -/
def witLayer : Layer := ⟨[[1]], [0]⟩

/-- Concrete parameter set used to instantiate witnesses. -/
def witParams : Params := ⟨witLayer, witLayer, witLayer⟩

/-- Concrete terminal transition used to instantiate witnesses. -/
def witTerminal : Transition := ⟨[1], 0, none, 5⟩

/-- Concrete non-terminal transition used to instantiate witnesses. -/
def witStep : Transition := ⟨[1], 0, some [2], 1⟩

lemma nextStateValue_of_none (target : Params) (t : Transition)
    (h : t.next_state = none) : nextStateValue target t = 0 := by
  simp [nextStateValue, h]

lemma length_expectedStateActionValues (target : Params) (gamma : ℚ)
    (batch : List Transition) :
    (expectedStateActionValues target gamma batch).length = batch.length := by
  simp [expectedStateActionValues, nextStateValues]

/-- C1: in the Optimizer Step, a batch row whose transition is terminal
(next_state absent) has next_state_values entry exactly zero, and its
bootstrapped regression target expected_state_action_values entry is exactly the
immediate reward of the transition, for every target network and every gamma. -/
theorem terminal_row_target_is_reward (target : Params) (gamma : ℚ)
    (batch : List Transition) (i : ℕ) (hi : i < batch.length)
    (hterm : (batch.getD i default).next_state = none) :
    (nextStateValues target batch).getD i 0 = 0 ∧
      (expectedStateActionValues target gamma batch).getD i 0 =
        (batch.getD i default).reward := by
  have hmap : i < (nextStateValues target batch).length := by
    simpa [nextStateValues] using hi
  have hzip : i < (expectedStateActionValues target gamma batch).length := by
    rw [length_expectedStateActionValues]; exact hi
  have hbatch : batch.getD i default = batch[i] :=
    List.getD_eq_getElem batch default hi
  have hval : (nextStateValues target batch).getD i 0 = 0 := by
    rw [List.getD_eq_getElem _ _ hmap]
    unfold nextStateValues
    rw [List.getElem_map]
    exact nextStateValue_of_none target _ (by rw [← hbatch]; exact hterm)
  refine ⟨hval, ?_⟩
  rw [List.getD_eq_getElem _ _ hzip]
  unfold expectedStateActionValues
  rw [List.getElem_zipWith]
  have hval2 : (nextStateValues target batch)[i] = 0 := by
    rw [← List.getD_eq_getElem _ _ hmap]; exact hval
  rw [hval2, List.getElem_map, zero_mul, zero_add, hbatch]

/-- Witness for C1 at a concrete terminal transition, target network and gamma. -/
theorem terminal_row_target_is_reward_witness :
    ((0 : ℕ) < [witTerminal].length ∧
        ([witTerminal].getD 0 default).next_state = none) ∧
      (nextStateValues witParams [witTerminal]).getD 0 0 = 0 ∧
        (expectedStateActionValues witParams (99 / 100) [witTerminal]).getD 0 0 =
          ([witTerminal].getD 0 default).reward :=
  ⟨⟨by decide, by decide⟩,
    terminal_row_target_is_reward witParams (99 / 100) [witTerminal] 0 (by decide)
      (by decide)⟩

/-- C2: when the buffer holds fewer than batch_size transitions, optimize_model
is a silent no-op: it returns and the acting parameters, target parameters and
buffer contents are all unchanged. -/
theorem optimize_model_small_buffer_noop (batch_size : ℕ) (gamma : ℚ)
    (idxs : List ℕ) (optimStep : Params → ℚ → Params) (s : AgentState)
    (h : s.memory.length < batch_size) :
    DQN.optimize_model batch_size gamma idxs optimStep s = s := by
  simp [DQN.optimize_model, h]

/-- Witness for C2 on a concrete empty buffer and batch_size 1. -/
theorem optimize_model_small_buffer_noop_witness :
    (AgentState.mk witParams witParams []).memory.length < 1 ∧
      DQN.optimize_model 1 (99 / 100) [] (fun p _ => p)
          (AgentState.mk witParams witParams []) =
        AgentState.mk witParams witParams [] :=
  ⟨by decide,
    optimize_model_small_buffer_noop 1 (99 / 100) [] (fun p _ => p)
      (AgentState.mk witParams witParams []) (by decide)⟩

/-- C7: whenever optimize_model runs (buffer size at least batch_size), only the
parameters of the acting network are written: the target network parameters and the
buffer contents are unchanged, for every substrate gradient step. -/
theorem optimize_model_frame (batch_size : ℕ) (gamma : ℚ) (idxs : List ℕ)
    (optimStep : Params → ℚ → Params) (s : AgentState)
    (h : batch_size ≤ s.memory.length) :
    (DQN.optimize_model batch_size gamma idxs optimStep s).target = s.target ∧
      (DQN.optimize_model batch_size gamma idxs optimStep s).memory = s.memory := by
  have hn : ¬ s.memory.length < batch_size := by omega
  unfold DQN.optimize_model
  simp only [hn, if_false]
  cases ReplayMemory.sample s.memory batch_size idxs <;> exact ⟨rfl, rfl⟩

/-- Witness for C7 on a concrete buffer of one transition and batch_size 1. -/
theorem optimize_model_frame_witness :
    (1 ≤ (AgentState.mk witParams witParams [witStep]).memory.length) ∧
      (DQN.optimize_model 1 (99 / 100) [0] (fun p _ => p)
            (AgentState.mk witParams witParams [witStep])).target = witParams ∧
        (DQN.optimize_model 1 (99 / 100) [0] (fun p _ => p)
            (AgentState.mk witParams witParams [witStep])).memory = [witStep] :=
  ⟨by decide,
    optimize_model_frame 1 (99 / 100) [0] (fun p _ => p)
      (AgentState.mk witParams witParams [witStep]) (by decide)⟩

/-- C6: the dqn setup reads env.state_dims as the action count and
env.action_dims as the observation count, so both value estimators are
constructed with input width env.action_dims and output width env.state_dims
(the naming swap of src/dqn2.py lines 151-152). -/
theorem dqn_setup_swaps_dims (env : Env) :
    (dqnSetup env).1.n_observations = env.action_dims ∧
      (dqnSetup env).1.n_actions = env.state_dims ∧
      (dqnSetup env).2.n_observations = env.action_dims ∧
      (dqnSetup env).2.n_actions = env.state_dims :=
  ⟨rfl, rfl, rfl, rfl⟩

/-- C10: sampling more elements than the buffer holds raises the ValueError of
random.sample instead of returning fewer elements or acting as a no-op. -/
theorem sample_oversize_raises (memory : List Transition) (k : ℕ) (idxs : List ℕ)
    (h : memory.length < k) :
    ReplayMemory.sample memory k idxs =
      Except.error "Sample larger than population or is negative" := by
  simp [ReplayMemory.sample, h]

/-- Witness for C10 on a concrete empty buffer and k = 1. -/
theorem sample_oversize_raises_witness :
    ([] : List Transition).length < 1 ∧
      ReplayMemory.sample [] 1 [] =
        Except.error "Sample larger than population or is negative" :=
  ⟨by decide, sample_oversize_raises [] 1 [] (by decide)⟩

/-- C8: for k at most the buffer size, valid draws exist and sample returns
exactly k elements at pairwise-distinct positions, each currently held in the
buffer; the buffer itself is only read. -/
theorem sample_ok (memory : List Transition) (k : ℕ) (idxs : List ℕ)
    (hk : k ≤ memory.length) (hsel : SampleSel memory.length k idxs) :
    (∃ sel, SampleSel memory.length k sel) ∧
      ∃ res, ReplayMemory.sample memory k idxs = Except.ok res ∧
        res.length = k ∧ ∀ x ∈ res, x ∈ memory := by
  obtain ⟨hnd, hlen, hbound⟩ := hsel
  refine ⟨⟨idxs, hnd, hlen, hbound⟩,
    idxs.map (fun i => memory.getD i default), ?_, ?_, ?_⟩
  · have hn : ¬ memory.length < k := by omega
    simp [ReplayMemory.sample, hn]
  · simp [hlen]
  · intro x hx
    obtain ⟨i, hi, hxe⟩ := List.mem_map.mp hx
    have hib := hbound i hi
    rw [← hxe, List.getD_eq_getElem memory default hib]
    exact List.getElem_mem hib

/-- Witness for C8 on a concrete two-element buffer, k = 2, draw [1, 0]. -/
theorem sample_ok_witness :
    (2 ≤ [witStep, witTerminal].length ∧
        SampleSel [witStep, witTerminal].length 2 [1, 0]) ∧
      (∃ sel, SampleSel [witStep, witTerminal].length 2 sel) ∧
        ∃ res, ReplayMemory.sample [witStep, witTerminal] 2 [1, 0] = Except.ok res ∧
          res.length = 2 ∧ ∀ x ∈ res, x ∈ [witStep, witTerminal] :=
  ⟨⟨by decide, by decide⟩,
    sample_ok [witStep, witTerminal] 2 [1, 0] (by decide) (by decide)⟩

/-- C9: every select_action call increments steps_done by exactly one and
changes nothing else of the policy state, on both the greedy and the random
branch; folding any run of calls raises steps_done by exactly the number of
calls, so the counter is monotonically increasing and never reset. -/
theorem select_action_increments_counter :
    ∀ (pol : EpsilonGreedyPolicy) (u : ℝ) (state : List ℚ) (policyNet : Params)
      (randAction : ℕ),
      (select_action pol u state policyNet randAction).1 =
        { pol with steps_done := pol.steps_done + 1 } ∧
      ∀ calls : List (ℝ × List ℚ × ℕ),
        (calls.foldl
            (fun p c => (select_action p c.1 c.2.1 policyNet c.2.2).1) pol).steps_done =
          pol.steps_done + calls.length := by
  intro pol u state policyNet randAction
  have hstep : ∀ (p : EpsilonGreedyPolicy) (v : ℝ) (st : List ℚ) (r : ℕ),
      (select_action p v st policyNet r).1 =
        { p with steps_done := p.steps_done + 1 } := by
    intro p v st r
    unfold select_action
    dsimp only
    split <;> rfl
  refine ⟨hstep pol u state randAction, ?_⟩
  intro calls
  induction calls generalizing pol with
  | nil => simp
  | cons c cs ih =>
    simp only [List.foldl_cons, List.length_cons]
    rw [ih, hstep pol c.1 c.2.1 c.2.2]
    show pol.steps_done + 1 + cs.length = pol.steps_done + (cs.length + 1)
    omega

lemma push_length_le (cap : ℕ) (memory : List Transition) (t : Transition)
    (h : memory.length ≤ cap) : (ReplayMemory.push cap memory t).length ≤ cap := by
  rw [ReplayMemory.push]
  simp only [List.length_drop, List.length_append, List.length_cons]
  omega

lemma pushAll_eq_drop (cap : ℕ) (memory ts : List Transition)
    (h : memory.length ≤ cap) :
    ReplayMemory.pushAll cap memory ts =
      (memory ++ ts).drop ((memory ++ ts).length - cap) := by
  induction ts generalizing memory with
  | nil =>
    rw [ReplayMemory.pushAll, List.foldl_nil, List.append_nil,
      Nat.sub_eq_zero_of_le h, List.drop_zero]
  | cons t ts ih =>
    rw [ReplayMemory.pushAll, List.foldl_cons]
    have hstep : ts.foldl (ReplayMemory.push cap) (ReplayMemory.push cap memory t) =
        ReplayMemory.pushAll cap (ReplayMemory.push cap memory t) ts := rfl
    rw [hstep, ih (ReplayMemory.push cap memory t) (push_length_le cap memory t h),
      ReplayMemory.push]
    have hd : (memory ++ [t]).length - cap ≤ (memory ++ [t]).length := Nat.sub_le _ _
    rw [← List.drop_append_of_le_length hd, List.drop_drop]
    have hl : (memory ++ [t]) ++ ts = memory ++ t :: ts := by simp
    rw [hl]
    congr 1
    simp only [List.length_drop, List.length_append, List.length_cons,
      List.length_nil]
    omega

/-- C3: starting from the empty buffer, the size after any push sequence never
exceeds the capacity; and after pushing cap + k transitions with k at least 1,
the size is exactly cap and the contents are exactly the most recently pushed
cap transitions in their original relative order (FIFO eviction of the oldest
k). -/
theorem buffer_capacity_fifo (cap k : ℕ) (ts : List Transition) (hk : 1 ≤ k)
    (hlen : ts.length = cap + k) :
    (∀ seq : List Transition, (ReplayMemory.pushAll cap [] seq).length ≤ cap) ∧
      (ReplayMemory.pushAll cap [] ts).length = cap ∧
      ReplayMemory.pushAll cap [] ts = ts.drop k := by
  have hall : ∀ seq : List Transition,
      ReplayMemory.pushAll cap [] seq = seq.drop (seq.length - cap) := by
    intro seq
    simpa using pushAll_eq_drop cap [] seq (by simp)
  refine ⟨?_, ?_, ?_⟩
  · intro seq
    rw [hall seq]
    simp only [List.length_drop]
    omega
  · rw [hall ts]
    simp only [List.length_drop, hlen]
    omega
  · rw [hall ts, hlen]
    congr 1
    omega

/-- Witness for C3: capacity 2, three pushed transitions, k = 1. -/
theorem buffer_capacity_fifo_witness :
    (1 ≤ 1 ∧ ([witStep, witTerminal, witStep] : List Transition).length = 2 + 1) ∧
      (∀ seq : List Transition, (ReplayMemory.pushAll 2 [] seq).length ≤ 2) ∧
        (ReplayMemory.pushAll 2 [] [witStep, witTerminal, witStep]).length = 2 ∧
        ReplayMemory.pushAll 2 [] [witStep, witTerminal, witStep] =
          [witStep, witTerminal, witStep].drop 1 :=
  ⟨⟨by decide, by decide⟩,
    buffer_capacity_fifo 2 1 [witStep, witTerminal, witStep] (by decide) (by decide)⟩

lemma blendList_one (p t : List ℚ) (h : p.length = t.length) : blendList 1 p t = p := by
  unfold blendList
  induction p generalizing t with
  | nil => simp
  | cons a as ih =>
    cases t with
    | nil => simp at h
    | cons b bs =>
      simp only [List.zipWith_cons_cons]
      rw [ih bs (by simpa using h)]
      norm_num

lemma blendList_zero (p t : List ℚ) (h : p.length = t.length) : blendList 0 p t = t := by
  unfold blendList
  induction p generalizing t with
  | nil => cases t with
    | nil => simp
    | cons b bs => simp at h
  | cons a as ih =>
    cases t with
    | nil => simp at h
    | cons b bs =>
      simp only [List.zipWith_cons_cons]
      rw [ih bs (by simpa using h)]
      norm_num

lemma blendMat_one (p t : List (List ℚ))
    (h : List.Forall₂ (fun r s => r.length = s.length) p t) :
    List.zipWith (blendList 1) p t = p := by
  induction h with
  | nil => rfl
  | cons h₁ h₂ ih =>
    simp only [List.zipWith_cons_cons, ih, blendList_one _ _ h₁]

lemma blendMat_zero (p t : List (List ℚ))
    (h : List.Forall₂ (fun r s => r.length = s.length) p t) :
    List.zipWith (blendList 0) p t = t := by
  induction h with
  | nil => rfl
  | cons h₁ h₂ ih =>
    simp only [List.zipWith_cons_cons, ih, blendList_zero _ _ h₁]

lemma blendLayer_one (p t : Layer) (h : LayerShape p t) : blendLayer 1 p t = p := by
  obtain ⟨hw, hb⟩ := h
  cases p with
  | mk pw pb =>
    show Layer.mk _ _ = Layer.mk pw pb
    rw [blendMat_one _ _ hw, blendList_one _ _ hb]

lemma blendLayer_zero (p t : Layer) (h : LayerShape p t) : blendLayer 0 p t = t := by
  obtain ⟨hw, hb⟩ := h
  cases t with
  | mk tw tb =>
    show Layer.mk _ _ = Layer.mk tw tb
    rw [blendMat_zero _ _ hw, blendList_zero _ _ hb]

lemma softUpdate_one (p t : Params) (h : SameShape p t) : softUpdate 1 p t = p := by
  obtain ⟨h1, h2, h3⟩ := h
  cases p with
  | mk p1 p2 p3 =>
    show Params.mk _ _ _ = Params.mk p1 p2 p3
    rw [blendLayer_one _ _ h1, blendLayer_one _ _ h2, blendLayer_one _ _ h3]

lemma softUpdate_zero (p t : Params) (h : SameShape p t) : softUpdate 0 p t = t := by
  obtain ⟨h1, h2, h3⟩ := h
  cases t with
  | mk t1 t2 t3 =>
    show Params.mk _ _ _ = Params.mk t1 t2 t3
    rw [blendLayer_zero _ _ h1, blendLayer_zero _ _ h2, blendLayer_zero _ _ h3]

lemma flatten_length_of_forall₂ (p t : List (List ℚ))
    (h : List.Forall₂ (fun r s => r.length = s.length) p t) :
    p.flatten.length = t.flatten.length := by
  induction h with
  | nil => rfl
  | cons h₁ h₂ ih => simp [h₁, ih]

lemma flatten_zipWith_blend (tau : ℚ) (p t : List (List ℚ))
    (h : List.Forall₂ (fun r s => r.length = s.length) p t) :
    (List.zipWith (blendList tau) p t).flatten = blendList tau p.flatten t.flatten := by
  induction h with
  | nil => rfl
  | cons h₁ h₂ ih =>
    simp only [List.zipWith_cons_cons, List.flatten_cons, ih]
    unfold blendList
    rw [List.zipWith_append _ _ _ _ _ h₁]

lemma layerFlat_length (p t : Layer) (h : LayerShape p t) :
    p.flat.length = t.flat.length := by
  obtain ⟨hw, hb⟩ := h
  simp [Layer.flat, flatten_length_of_forall₂ _ _ hw, hb]

lemma layerFlat_blend (tau : ℚ) (p t : Layer) (h : LayerShape p t) :
    (blendLayer tau p t).flat = blendList tau p.flat t.flat := by
  obtain ⟨hw, hb⟩ := h
  unfold Layer.flat blendLayer
  dsimp only
  rw [flatten_zipWith_blend tau _ _ hw]
  unfold blendList
  rw [List.zipWith_append _ _ _ _ _ (flatten_length_of_forall₂ _ _ hw)]

lemma paramsFlat_blend (tau : ℚ) (p t : Params) (h : SameShape p t) :
    (softUpdate tau p t).flat = blendList tau p.flat t.flat := by
  obtain ⟨h1, h2, h3⟩ := h
  unfold Params.flat softUpdate
  dsimp only
  rw [layerFlat_blend tau _ _ h1, layerFlat_blend tau _ _ h2,
    layerFlat_blend tau _ _ h3]
  unfold blendList
  rw [List.zipWith_append _ _ _ _ _
    (by simp [layerFlat_length _ _ h1, layerFlat_length _ _ h2])]
  rw [List.zipWith_append _ _ _ _ _ (layerFlat_length _ _ h1)]

lemma blendList_spec_form (tau : ℚ) (p t : List ℚ) :
    blendList tau p t = List.zipWith (fun a b => tau * a + (1 - tau) * b) p t := by
  unfold blendList
  induction p generalizing t with
  | nil => simp
  | cons a as ih =>
    cases t with
    | nil => simp
    | cons b bs =>
      simp only [List.zipWith_cons_cons, ih]
      congr 1
      ring

/-- C4: the Target Tracker sets every named parameter element to
tau * acting + (1 - tau) * target; hence one update with tau = 1 makes the
target parameters exactly the acting parameters, an update with tau = 0 leaves
the target unchanged, and applying it twice with tau = 0 leaves the target
bit-identical. -/
theorem soft_update_blends_parameters (tau : ℚ) (p t : Params) (h : SameShape p t) :
    (softUpdate tau p t).flat =
        List.zipWith (fun a b => tau * a + (1 - tau) * b) p.flat t.flat ∧
      softUpdate 1 p t = p ∧ softUpdate 0 p t = t ∧
      softUpdate 0 p (softUpdate 0 p t) = t := by
  refine ⟨?_, softUpdate_one p t h, softUpdate_zero p t h, ?_⟩
  · rw [paramsFlat_blend tau p t h, blendList_spec_form]
  · rw [softUpdate_zero p t h, softUpdate_zero p t h]

/-- Distinct concrete parameter set with the same shapes as witParams, used to
instantiate the Target Tracker witness. -/
def witParamsB : Params := ⟨⟨[[2]], [3]⟩, ⟨[[4]], [5]⟩, ⟨[[6]], [7]⟩⟩

/-- Witness for C4 at tau = 1/2 on two concrete same-shape parameter sets. -/
theorem soft_update_blends_parameters_witness :
    SameShape witParams witParamsB ∧
      ((softUpdate (1 / 2) witParams witParamsB).flat =
          List.zipWith (fun a b => 1 / 2 * a + (1 - 1 / 2) * b) witParams.flat
            witParamsB.flat ∧
        softUpdate 1 witParams witParamsB = witParams ∧
        softUpdate 0 witParams witParamsB = witParamsB ∧
        softUpdate 0 witParams (softUpdate 0 witParams witParamsB) = witParamsB) :=
  ⟨by constructor <;> constructor <;> simp [LayerShape, SameShape, witParams, witParamsB, witLayer],
    soft_update_blends_parameters (1 / 2) witParams witParamsB
      (by constructor <;> constructor <;> simp [LayerShape, SameShape, witParams, witParamsB, witLayer])⟩

/-- C5: the exploration threshold computed by select_action equals
eps_end + (eps_start - eps_end) * exp(-steps_done / eps_decay); it equals
eps_start at steps_done = 0, and for eps_start > eps_end and positive eps_decay
it is monotonically non-increasing in steps_done and converges to eps_end as
steps_done tends to infinity. -/
theorem eps_threshold_schedule (eps_start eps_end eps_decay : ℝ)
    (hlt : eps_end < eps_start) (hdec : 0 < eps_decay) :
    (∀ n : ℕ, epsThreshold eps_start eps_end eps_decay n =
        eps_end + (eps_start - eps_end) * Real.exp (-(n : ℝ) / eps_decay)) ∧
      epsThreshold eps_start eps_end eps_decay 0 = eps_start ∧
      (∀ m n : ℕ, m ≤ n →
        epsThreshold eps_start eps_end eps_decay n ≤
          epsThreshold eps_start eps_end eps_decay m) ∧
      Filter.Tendsto (fun n : ℕ => epsThreshold eps_start eps_end eps_decay n)
        Filter.atTop (nhds eps_end) := by
  refine ⟨?_, ?_, ?_, ?_⟩
  · intro n
    unfold epsThreshold
    rw [neg_one_mul, neg_div]
  · unfold epsThreshold
    norm_num
  · intro m n hmn
    unfold epsThreshold
    have hcast : (m : ℝ) ≤ (n : ℝ) := Nat.cast_le.mpr hmn
    have harg : (-1 : ℝ) * (n : ℝ) / eps_decay ≤ -1 * (m : ℝ) / eps_decay :=
      (div_le_div_iff_of_pos_right hdec).mpr (by linarith)
    have hexp := Real.exp_le_exp.mpr harg
    have hpos : (0 : ℝ) ≤ eps_start - eps_end := by linarith
    nlinarith [mul_le_mul_of_nonneg_left hexp hpos]
  · have h1 : Filter.Tendsto (fun n : ℕ => (n : ℝ) / eps_decay)
        Filter.atTop Filter.atTop :=
      Filter.Tendsto.atTop_div_const hdec tendsto_natCast_atTop_atTop
    have h2 : Filter.Tendsto (fun n : ℕ => -1 * (n : ℝ) / eps_decay)
        Filter.atTop Filter.atBot := by
      have hcomp := Filter.tendsto_neg_atTop_atBot.comp h1
      have hfun : (fun n : ℕ => -1 * (n : ℝ) / eps_decay) =
          (Neg.neg ∘ fun n : ℕ => (n : ℝ) / eps_decay) := by
        funext n
        simp [Function.comp, neg_one_mul, neg_div]
      rw [hfun]
      exact hcomp
    have h3 : Filter.Tendsto (fun n : ℕ => Real.exp (-1 * (n : ℝ) / eps_decay))
        Filter.atTop (nhds 0) := Real.tendsto_exp_atBot.comp h2
    have h4 := (h3.const_mul (eps_start - eps_end)).const_add eps_end
    unfold epsThreshold
    simpa using h4

/-- Witness for C5 at the source defaults eps_start = 0.9, eps_end = 0.05,
eps_decay = 1000. -/
theorem eps_threshold_schedule_witness :
    ((0.05 : ℝ) < 0.9 ∧ (0 : ℝ) < 1000) ∧
      (∀ n : ℕ, epsThreshold 0.9 0.05 1000 n =
          0.05 + (0.9 - 0.05) * Real.exp (-(n : ℝ) / 1000)) ∧
        epsThreshold 0.9 0.05 1000 0 = 0.9 ∧
        (∀ m n : ℕ, m ≤ n →
          epsThreshold 0.9 0.05 1000 n ≤ epsThreshold 0.9 0.05 1000 m) ∧
        Filter.Tendsto (fun n : ℕ => epsThreshold 0.9 0.05 1000 n)
          Filter.atTop (nhds 0.05) :=
  ⟨⟨by norm_num, by norm_num⟩,
    eps_threshold_schedule 0.9 0.05 1000 (by norm_num) (by norm_num)⟩
